import Mathlib

/-!
Verification development for the botthew-office dashboard server.

The repository ships several server variants. The hardened variant
(`src/unnamed/part_001`) validates bulk updates, disables `/api/assign-task`
(403) and sanitises `/api/agent-status` input; the older variant in
`src/server.js` has `/api/assign-task` enabled and creates task records with
`id: Date.now()`. Both variants share the same in-memory data model: an
`agentState` object mapping agent names to `{status, tasks, productivity}`,
two append-only task lists (`taskQueue`, `taskHistory`) and a list of SSE
client response streams (`sseClients`) to which events are broadcast.

We embed these shallowly: JS objects become association lists (keys in
insertion order), JS values that the code inspects with `typeof` become an
inductive `JsVal`, SSE clients become subscribers carrying the list of events
written to them, and each HTTP route becomes a pure function from server
state and request body to a result and a new server state.
-/

/-- A JavaScript value as far as the server's `typeof` checks distinguish it:
a string, a number, or anything else (object, boolean, null, undefined…).
JS numbers are modelled as integers; every numeric comparison the server
performs (`>= 0`, `<= 1000`, `<= 100`) is order-based, so the embedding is
faithful on integer inputs. -/
inductive JsVal where
  | str (s : String)
  | num (n : Int)
  | other
  deriving DecidableEq, Repr

/-- One agent's record in `agentState`: `{ status, tasks, productivity }`. -/
structure AgentRecord where
  status : String
  tasks : Int
  productivity : Int
  deriving DecidableEq, Repr

/-- The `agentState` object: agent name to record, in insertion order. -/
abbrev Store := List (String × AgentRecord)

/-- A partial per-agent update as received in a bulk `/api/update-state`
payload: each recognised field may be absent or hold an arbitrary JS value.
Fields outside this set are never read by the handler. -/
structure PartialAgentState where
  status : Option JsVal := none
  tasks : Option JsVal := none
  productivity : Option JsVal := none
  deriving DecidableEq, Repr

/-- A task object as stored in `taskQueue`/`taskHistory`. `/api/assign-task`
builds one with every field present; `/api/task-assigned` pushes the raw
request body, in which any field may be missing. -/
structure TaskObj where
  id : Option Nat := none
  agent : Option String := none
  task : Option String := none
  timestamp : Option Nat := none
  status : Option String := none
  deriving DecidableEq, Repr

/-- The tagged events the server broadcasts over SSE. -/
inductive Event where
  | state (agents : Store)
  | taskAssigned (task : TaskObj) (agents : Store)
  | statusUpdate (agent status : String) (agents : Store)
  deriving DecidableEq, Repr

/-- One SSE client: the response handle (identified by a number, since each
`res` object is a distinct identity) together with the events written to it,
in order. -/
structure Subscriber where
  id : Nat
  written : List Event
  deriving DecidableEq, Repr

/-- The server's whole mutable state. -/
structure ServerState where
  agentState : Store
  taskQueue : List TaskObj
  taskHistory : List TaskObj
  sseClients : List Subscriber
  deriving DecidableEq, Repr

/-- Outcomes of a route handler, by HTTP status and payload shape. -/
inductive ApiResult where
  | ok
  | okTask (t : TaskObj)
  | badRequest
  | notFound
  | forbidden
  deriving DecidableEq, Repr

/-- JS object read `agentState[name]`: the record bound to the first (only)
occurrence of the key, or `undefined`. -/
def lookupAgent : Store → String → Option AgentRecord
  | [], _ => none
  | (k, v) :: rest, n => if k = n then some v else lookupAgent rest n

/-- JS object write `agentState[name] = r`: replaces the value at an existing
key in place, or appends a new key (JS adds missing keys on assignment). -/
def setAgent : Store → String → AgentRecord → Store
  | [], n, r => [(n, r)]
  | (k, v) :: rest, n, r =>
      if k = n then (k, r) :: rest else (k, v) :: setAgent rest n r

/-- The `broadcast` helper: writes one event to every connected SSE client. -/
def broadcast (clients : List Subscriber) (e : Event) : List Subscriber :=
  clients.map fun c => { c with written := c.written ++ [e] }

/-- Broadcasting a sequence of events in order. -/
def broadcastAll (clients : List Subscriber) (es : List Event) : List Subscriber :=
  es.foldl broadcast clients

/-- JS `String.prototype.toLowerCase` on the relevant (ASCII) alphabet,
computed characterwise so that concrete instances evaluate. -/
def jsToLower (s : String) : String := String.mk (s.toList.map Char.toLower)

/-- Dropping leading and trailing whitespace from a character list. -/
def trimChars (l : List Char) : List Char :=
  ((l.dropWhile Char.isWhitespace).reverse.dropWhile Char.isWhitespace).reverse

/-- JS `String.prototype.trim`. -/
def jsTrim (s : String) : String := String.mk (trimChars s.toList)

/-- The closed status enumeration `validStatuses` shared by
`/api/update-state` and `/api/agent-status`. -/
def validStatuses : List String := ["online", "offline", "idle", "busy"]

/-- The per-record sanitisation step of the hardened `/api/update-state`:
builds `safeState` from the recognised fields of the partial update and
spreads it over the existing record. A string `status` whose lowercase form
is in `validStatuses` is kept verbatim, any other string becomes `"offline"`;
`tasks` is kept only if numeric in [0,1000]; `productivity` only if numeric
in [0,100]; all other shapes leave the field untouched. -/
def applySafe (old : AgentRecord) (p : PartialAgentState) : AgentRecord :=
  let r1 :=
    match p.status with
    | some (JsVal.str s) =>
        if validStatuses.contains (jsToLower s) then { old with status := s }
        else { old with status := "offline" }
    | _ => old
  let r2 :=
    match p.tasks with
    | some (JsVal.num n) =>
        if 0 ≤ n ∧ n ≤ 1000 then { r1 with tasks := n } else r1
    | _ => r1
  match p.productivity with
  | some (JsVal.num n) =>
      if 0 ≤ n ∧ n ≤ 100 then { r2 with productivity := n } else r2
  | _ => r2

/-- One iteration of the hardened `/api/update-state` loop: unknown agent
names are skipped (`if (!agentState[name]) continue`), known ones are merged
through `applySafe`. -/
def mergeOne (st : Store) (name : String) (p : PartialAgentState) : Store :=
  match lookupAgent st name with
  | none => st
  | some old => setAgent st name (applySafe old p)

/-- The whole `/api/update-state` loop over the payload's entries. -/
def mergeUpdates (st : Store) (updates : List (String × PartialAgentState)) : Store :=
  updates.foldl (fun acc kv => mergeOne acc kv.1 kv.2) st

/-- The hardened `POST /api/update-state` route: rejects a non-object body
with 400, otherwise merges every entry, broadcasts one `state` event with the
merged store, and answers `{success:true}`. -/
def updateStateRoute (s : ServerState)
    (body : Option (List (String × PartialAgentState))) : ApiResult × ServerState :=
  match body with
  | none => (ApiResult.badRequest, s)
  | some updates =>
      let st := mergeUpdates s.agentState updates
      (ApiResult.ok,
       { s with agentState := st,
                sseClients := broadcast s.sseClients (Event.state st) })

/-- The `GET /api/events` route: registers the new client and synchronously
writes it one `state` event carrying the current `agentState`. -/
def subscribeRoute (s : ServerState) (fresh : Nat) : ServerState :=
  { s with
    sseClients := s.sseClients ++ [⟨fresh, [Event.state s.agentState]⟩] }

/-- The close handler of `GET /api/events`: `indexOf` then `splice(index,1)`,
i.e. remove the first client with the given handle, if any. -/
def unsubscribeClient : List Subscriber → Nat → List Subscriber
  | [], _ => []
  | c :: cs, h => if c.id = h then cs else c :: unsubscribeClient cs h

/-- The hardened `POST /api/assign-task` route: unconditionally 403, no state
touched (the endpoint is disabled to close an injection vector). -/
def assignTaskDisabled (s : ServerState) (_body : TaskObj) : ApiResult × ServerState :=
  (ApiResult.forbidden, s)

/-- JS `(x || 0)` on a number: 0 is falsy, every other integer is truthy. -/
def orZero (x : Int) : Int := if x = 0 then 0 else x

/-- The `POST /api/task-assigned` route: pushes the raw body onto history and
queue, increments `tasks` only when `body.agent` names a known agent, always
broadcasts a `task_assigned` event and answers `{success:true}`. -/
def taskAssignedRoute (s : ServerState) (body : TaskObj) : ApiResult × ServerState :=
  let st :=
    match body.agent with
    | some a =>
        match lookupAgent s.agentState a with
        | some r => setAgent s.agentState a { r with tasks := orZero r.tasks + 1 }
        | none => s.agentState
    | none => s.agentState
  (ApiResult.ok,
   { agentState := st,
     taskQueue := s.taskQueue ++ [body],
     taskHistory := s.taskHistory ++ [body],
     sseClients := broadcast s.sseClients (Event.taskAssigned body st) })

/-- Characters rejected by the hardened server's input filter
(the class in `/[<>\x7b\x7d|&;\x60$\n]/`). -/
def suspiciousChars : List Char :=
  ['<', '>', Char.ofNat 123, Char.ofNat 125, '|', '&', ';', Char.ofNat 96, '$', '\n']

/-- The `validateInput` helper: a non-string or over-long value maps to
`null`, a string containing a suspicious character maps to `null`, anything
else is trimmed. -/
def validateInput (v : Option JsVal) (maxLength : Nat := 1000) : Option String :=
  match v with
  | some (JsVal.str s) =>
      if s.length > maxLength then none
      else if s.toList.any (fun c => suspiciousChars.contains c) then none
      else some (jsTrim s)
  | _ => none

/-- The hardened `POST /api/agent-status` route: sanitises both fields (400
if either fails or is empty), 404 on unknown agent, 400 on a status whose
lowercase form is outside `validStatuses`; otherwise stores the status
verbatim and broadcasts a `status_update` event. -/
def agentStatusRoute (s : ServerState) (agentRaw statusRaw : Option JsVal) :
    ApiResult × ServerState :=
  match validateInput agentRaw 50, validateInput statusRaw 50 with
  | some agent, some status =>
      if agent = "" ∨ status = "" then (ApiResult.badRequest, s)
      else
        match lookupAgent s.agentState agent with
        | none => (ApiResult.notFound, s)
        | some r =>
            if validStatuses.contains (jsToLower status) then
              let st := setAgent s.agentState agent { r with status := status }
              (ApiResult.ok,
               { s with agentState := st,
                        sseClients :=
                          broadcast s.sseClients (Event.statusUpdate agent status st) })
            else (ApiResult.badRequest, s)
  | _, _ => (ApiResult.badRequest, s)

/-- The `taskEntry` object `/api/assign-task` builds: `id` is `Date.now()`
and `timestamp` is the same clock reading (`new Date().toISOString()`),
`status` starts at `"assigned"`. -/
def taskEntryOf (a t : String) (now : Nat) : TaskObj :=
  { id := some now, agent := some a, task := some t,
    timestamp := some now, status := some "assigned" }

/-- The enabled `POST /api/assign-task` route of `src/server.js`: 400 on a
missing or empty agent/task, 404 on unknown agent; on success builds a
`taskEntry` with `id` and `timestamp` both taken from the current clock
(`Date.now()`, passed in as `now`), pushes it onto queue and history,
increments the agent's `tasks`, broadcasts a `task_assigned` event and
returns the entry. -/
def assignTaskEnabled (s : ServerState) (agent task : Option String) (now : Nat) :
    ApiResult × ServerState :=
  match agent, task with
  | some a, some t =>
      if a = "" ∨ t = "" then (ApiResult.badRequest, s)
      else
        match lookupAgent s.agentState a with
        | none => (ApiResult.notFound, s)
        | some r =>
            let taskEntry := taskEntryOf a t now
            let st := setAgent s.agentState a { r with tasks := orZero r.tasks + 1 }
            (ApiResult.okTask taskEntry,
             { agentState := st,
               taskQueue := s.taskQueue ++ [taskEntry],
               taskHistory := s.taskHistory ++ [taskEntry],
               sseClients := broadcast s.sseClients (Event.taskAssigned taskEntry st) })
  | _, _ => (ApiResult.badRequest, s)

/-- A sequence of `/api/assign-task` calls, each with its `Date.now()`
reading. -/
def runAssigns (s : ServerState) : List (String × String × Nat) → ServerState
  | [] => s
  | (a, t, now) :: rest => runAssigns (assignTaskEnabled s (some a) (some t) now).2 rest

/-- The ids actually present in the task history, in append order. -/
def historyIds (s : ServerState) : List Nat :=
  s.taskHistory.filterMap TaskObj.id

/-- The hardened server's initial `agentState`: every known agent offline. -/
def hardenedAgentState : Store :=
  [("Botthew", ⟨"offline", 0, 0⟩), ("DevBot", ⟨"offline", 0, 0⟩),
   ("ResearchBot", ⟨"offline", 0, 0⟩), ("WriterBot", ⟨"offline", 0, 0⟩),
   ("DesignBot", ⟨"offline", 0, 0⟩), ("DebugBot", ⟨"offline", 0, 0⟩),
   ("OpsBot", ⟨"offline", 0, 0⟩), ("DataBot", ⟨"offline", 0, 0⟩),
   ("SecurityBot", ⟨"offline", 0, 0⟩)]

/-- The hardened server's initial state: empty logs, no clients. -/
def hardenedInit : ServerState :=
  { agentState := hardenedAgentState, taskQueue := [], taskHistory := [],
    sseClients := [] }

/-- The initial `agentState` of `src/server.js`. -/
def serverAgentState : Store :=
  [("Botthew", ⟨"online", 12, 85⟩), ("DevBot", ⟨"online", 5, 92⟩),
   ("ResearchBot", ⟨"online", 3, 88⟩), ("WriterBot", ⟨"online", 7, 78⟩),
   ("DesignBot", ⟨"online", 8, 95⟩), ("DebugBot", ⟨"online", 4, 81⟩),
   ("OpsBot", ⟨"online", 6, 87⟩), ("DataBot", ⟨"online", 2, 90⟩),
   ("SecurityBot", ⟨"online", 9, 93⟩)]

/-- The initial state of `src/server.js`: empty logs, no clients. -/
def serverInit : ServerState :=
  { agentState := serverAgentState, taskQueue := [], taskHistory := [],
    sseClients := [] }

/-! ### Store lemmas -/

lemma lookupAgent_setAgent_self (st : Store) (n : String) (r : AgentRecord) :
    lookupAgent (setAgent st n r) n = some r := by
  induction st with
  | nil => simp [setAgent, lookupAgent]
  | cons hd tl ih =>
    obtain ⟨k, v⟩ := hd
    by_cases h : k = n
    · simp [setAgent, lookupAgent, h]
    · simp [setAgent, lookupAgent, h, ih]

lemma lookupAgent_setAgent_ne (st : Store) (n k : String) (r : AgentRecord)
    (h : k ≠ n) : lookupAgent (setAgent st n r) k = lookupAgent st k := by
  have hnk : n ≠ k := Ne.symm h
  induction st with
  | nil => simp [setAgent, lookupAgent, hnk]
  | cons hd tl ih =>
    obtain ⟨k', v⟩ := hd
    by_cases h' : k' = n
    · subst h'
      simp [setAgent, lookupAgent, hnk]
    · simp [setAgent, lookupAgent, h', ih]

lemma lookupAgent_eq_none_iff (st : Store) (n : String) :
    lookupAgent st n = none ↔ n ∉ st.map Prod.fst := by
  induction st with
  | nil => simp [lookupAgent]
  | cons hd tl ih =>
    obtain ⟨k, v⟩ := hd
    by_cases h : k = n
    · simp [lookupAgent, h]
    · have hnk : n ≠ k := fun hh => h hh.symm
      simp [lookupAgent, h, ih, hnk]

lemma keys_setAgent (st : Store) (n : String) (r0 r : AgentRecord)
    (h : lookupAgent st n = some r0) :
    (setAgent st n r).map Prod.fst = st.map Prod.fst := by
  induction st with
  | nil => simp [lookupAgent] at h
  | cons hd tl ih =>
    obtain ⟨k, v⟩ := hd
    by_cases h' : k = n
    · simp [setAgent, h']
    · simp [lookupAgent, h'] at h
      simp [setAgent, h', ih h]

lemma keys_mergeOne (st : Store) (n : String) (p : PartialAgentState) :
    (mergeOne st n p).map Prod.fst = st.map Prod.fst := by
  unfold mergeOne
  cases h : lookupAgent st n with
  | none => rfl
  | some r => exact keys_setAgent st n r (applySafe r p) h

lemma keys_mergeUpdates (st : Store) (l : List (String × PartialAgentState)) :
    (mergeUpdates st l).map Prod.fst = st.map Prod.fst := by
  induction l generalizing st with
  | nil => rfl
  | cons q l ih =>
    calc (mergeUpdates (mergeOne st q.1 q.2) l).map Prod.fst
        = (mergeOne st q.1 q.2).map Prod.fst := ih _
      _ = st.map Prod.fst := keys_mergeOne st q.1 q.2

lemma lookupAgent_mergeOne_ne (st : Store) (n k : String) (p : PartialAgentState)
    (h : k ≠ n) : lookupAgent (mergeOne st n p) k = lookupAgent st k := by
  unfold mergeOne
  cases hl : lookupAgent st n with
  | none => rfl
  | some r => exact lookupAgent_setAgent_ne st n k (applySafe r p) h

lemma lookupAgent_mergeOne_self (st : Store) (k : String) (p : PartialAgentState)
    (r : AgentRecord) (h : lookupAgent st k = some r) :
    lookupAgent (mergeOne st k p) k = some (applySafe r p) := by
  unfold mergeOne
  rw [h]
  exact lookupAgent_setAgent_self st k (applySafe r p)

lemma lookupAgent_mergeUpdates_not_mem (st : Store)
    (l : List (String × PartialAgentState)) (k : String)
    (h : ∀ q ∈ l, q.1 ≠ k) :
    lookupAgent (mergeUpdates st l) k = lookupAgent st k := by
  induction l generalizing st with
  | nil => rfl
  | cons q l ih =>
    have hq : q.1 ≠ k := h q (List.mem_cons_self q l)
    calc lookupAgent (mergeUpdates (mergeOne st q.1 q.2) l) k
        = lookupAgent (mergeOne st q.1 q.2) k :=
          ih _ (fun q' hq' => h q' (List.mem_cons_of_mem q hq'))
      _ = lookupAgent st k := lookupAgent_mergeOne_ne st q.1 k q.2 (fun hh => hq hh.symm)

/-! ### Broadcast lemmas -/

lemma broadcast_append (xs ys : List Subscriber) (e : Event) :
    broadcast (xs ++ ys) e = broadcast xs e ++ broadcast ys e := by
  simp [broadcast]

lemma broadcastAll_append (xs ys : List Subscriber) (es : List Event) :
    broadcastAll (xs ++ ys) es = broadcastAll xs es ++ broadcastAll ys es := by
  induction es generalizing xs ys with
  | nil => rfl
  | cons e es ih =>
    show broadcastAll (broadcast (xs ++ ys) e) es = _
    rw [broadcast_append, ih]
    rfl

lemma broadcastAll_single (f : Nat) (w : List Event) (es : List Event) :
    broadcastAll [⟨f, w⟩] es = [⟨f, w ++ es⟩] := by
  induction es generalizing w with
  | nil => simp [broadcastAll]
  | cons e es ih =>
    show broadcastAll (broadcast [⟨f, w⟩] e) es = _
    simp only [broadcast, List.map_cons, List.map_nil]
    rw [ih]
    simp

/-! ### applySafe field lemmas -/

lemma applySafe_status (old : AgentRecord) (p : PartialAgentState) :
    (applySafe old p).status =
      match p.status with
      | some (JsVal.str sv) =>
          if validStatuses.contains (jsToLower sv) then sv else "offline"
      | _ => old.status := by
  obtain ⟨ps, pt, pp⟩ := p
  rcases ps with _ | (sv | nv | _) <;>
    rcases pt with _ | (sv' | nv' | _) <;>
    rcases pp with _ | (sv'' | nv'' | _) <;>
    simp [applySafe] <;>
    repeat' split <;>
    simp_all

lemma applySafe_tasks (old : AgentRecord) (p : PartialAgentState) :
    (applySafe old p).tasks =
      match p.tasks with
      | some (JsVal.num nv) => if 0 ≤ nv ∧ nv ≤ 1000 then nv else old.tasks
      | _ => old.tasks := by
  obtain ⟨ps, pt, pp⟩ := p
  rcases ps with _ | (sv | nv | _) <;>
    rcases pt with _ | (sv' | nv' | _) <;>
    rcases pp with _ | (sv'' | nv'' | _) <;>
    simp [applySafe] <;>
    repeat' split <;>
    simp_all

lemma applySafe_productivity (old : AgentRecord) (p : PartialAgentState) :
    (applySafe old p).productivity =
      match p.productivity with
      | some (JsVal.num nv) => if 0 ≤ nv ∧ nv ≤ 100 then nv else old.productivity
      | _ => old.productivity := by
  obtain ⟨ps, pt, pp⟩ := p
  rcases ps with _ | (sv | nv | _) <;>
    rcases pt with _ | (sv' | nv' | _) <;>
    rcases pp with _ | (sv'' | nv'' | _) <;>
    simp [applySafe] <;>
    repeat' split <;>
    simp_all

lemma orZero_add_one (x : Int) : orZero x + 1 = x + 1 := by
  unfold orZero
  split <;> omega

/-! ### Claim theorems -/

/-- C1: a bulk update through the hardened `POST /api/update-state` always
succeeds, leaves the store's key set exactly as it was (unknown identifiers
are skipped silently and never appear in a later snapshot), and a known
identifier listed once in the payload still gets its listed fields applied
through the sanitiser. -/
theorem updateState_skips_unknown (s : ServerState)
    (updates : List (String × PartialAgentState)) :
    (updateStateRoute s (some updates)).1 = ApiResult.ok
    ∧ (updateStateRoute s (some updates)).2.agentState.map Prod.fst
        = s.agentState.map Prod.fst
    ∧ (∀ u, lookupAgent s.agentState u = none →
        lookupAgent (updateStateRoute s (some updates)).2.agentState u = none)
    ∧ (∀ l1 k p l2 r, updates = l1 ++ (k, p) :: l2 →
        (∀ q ∈ l1, q.1 ≠ k) → (∀ q ∈ l2, q.1 ≠ k) →
        lookupAgent s.agentState k = some r →
        lookupAgent (updateStateRoute s (some updates)).2.agentState k
          = some (applySafe r p)) := by
  have hst : (updateStateRoute s (some updates)).2.agentState
      = mergeUpdates s.agentState updates := rfl
  refine ⟨rfl, ?_, ?_, ?_⟩
  · rw [hst]
    exact keys_mergeUpdates _ _
  · intro u hu
    rw [hst, lookupAgent_eq_none_iff, keys_mergeUpdates]
    exact (lookupAgent_eq_none_iff _ _).mp hu
  · intro l1 k p l2 r hupd h1 h2 hk
    rw [hst, hupd]
    have hsplit : mergeUpdates s.agentState (l1 ++ (k, p) :: l2)
        = mergeUpdates (mergeOne (mergeUpdates s.agentState l1) k p) l2 := by
      simp [mergeUpdates, List.foldl_append]
    rw [hsplit, lookupAgent_mergeUpdates_not_mem _ _ _ h2]
    exact lookupAgent_mergeOne_self _ _ _ r
      (by rw [lookupAgent_mergeUpdates_not_mem _ _ _ h1]; exact hk)

/-- Witness for C1: a payload mixing the unknown agent `Ghost` with the known
agent `DevBot`, applied to the hardened initial store. -/
theorem updateState_skips_unknown_witness :
    lookupAgent (updateStateRoute hardenedInit (some
        [("Ghost", { status := some (JsVal.str "online") }),
         ("DevBot", { status := some (JsVal.str "busy"),
                      productivity := some (JsVal.num 150) })])).2.agentState "Ghost"
      = none
    ∧ lookupAgent (updateStateRoute hardenedInit (some
        [("Ghost", { status := some (JsVal.str "online") }),
         ("DevBot", { status := some (JsVal.str "busy"),
                      productivity := some (JsVal.num 150) })])).2.agentState "DevBot"
      = some ⟨"busy", 0, 0⟩ := by
  constructor
  · exact (updateState_skips_unknown hardenedInit _).2.2.1 "Ghost" (by decide)
  · have h := (updateState_skips_unknown hardenedInit
        [("Ghost", { status := some (JsVal.str "online") }),
         ("DevBot", { status := some (JsVal.str "busy"),
                      productivity := some (JsVal.num 150) })]).2.2.2
        [("Ghost", { status := some (JsVal.str "online") })] "DevBot"
        { status := some (JsVal.str "busy"), productivity := some (JsVal.num 150) }
        [] ⟨"offline", 0, 0⟩ rfl (by decide) (by decide) (by decide)
    rw [h]
    decide

/-- C3: inside a bulk update, `tasks` is applied only when numeric in
[0,1000] and `productivity` only when numeric in [0,100]; an out-of-range or
non-numeric field is dropped individually, leaving that field at its previous
value while the other fields of the same partial record still apply, and the
route as a whole always succeeds once the payload is a mapping. -/
theorem updateState_field_ranges (old : AgentRecord) (p : PartialAgentState)
    (s : ServerState) (updates : List (String × PartialAgentState)) :
    (∀ nv : Int, p.tasks = some (JsVal.num nv) → 0 ≤ nv → nv ≤ 1000 →
        (applySafe old p).tasks = nv)
    ∧ ((¬ ∃ nv : Int, p.tasks = some (JsVal.num nv) ∧ 0 ≤ nv ∧ nv ≤ 1000) →
        (applySafe old p).tasks = old.tasks)
    ∧ (∀ nv : Int, p.productivity = some (JsVal.num nv) → 0 ≤ nv → nv ≤ 100 →
        (applySafe old p).productivity = nv)
    ∧ ((¬ ∃ nv : Int, p.productivity = some (JsVal.num nv) ∧ 0 ≤ nv ∧ nv ≤ 100) →
        (applySafe old p).productivity = old.productivity)
    ∧ (updateStateRoute s (some updates)).1 = ApiResult.ok := by
  refine ⟨?_, ?_, ?_, ?_, rfl⟩
  · intro nv hnv h0 h1
    rw [applySafe_tasks, hnv]
    simp [h0, h1]
  · intro hno
    rw [applySafe_tasks]
    rcases hpt : p.tasks with _ | (sv | nv | _)
    · rfl
    · rfl
    · have hr : ¬ (0 ≤ nv ∧ nv ≤ 1000) := fun hc => hno ⟨nv, hpt, hc.1, hc.2⟩
      simp [hr]
    · rfl
  · intro nv hnv h0 h1
    rw [applySafe_productivity, hnv]
    simp [h0, h1]
  · intro hno
    rw [applySafe_productivity]
    rcases hpp : p.productivity with _ | (sv | nv | _)
    · rfl
    · rfl
    · have hr : ¬ (0 ≤ nv ∧ nv ≤ 100) := fun hc => hno ⟨nv, hpp, hc.1, hc.2⟩
      simp [hr]
    · rfl

/-- Witness for C3: the spec's scenario, `status:"busy"` with
`productivity:150` on a known agent. -/
theorem updateState_field_ranges_witness :
    (applySafe ⟨"offline", 0, 0⟩
        { status := some (JsVal.str "busy"),
          productivity := some (JsVal.num 150) }).productivity = 0
    ∧ (applySafe ⟨"offline", 3, 42⟩ { tasks := some (JsVal.num 7) }).tasks = 7 := by
  constructor
  · refine (updateState_field_ranges ⟨"offline", 0, 0⟩
      { status := some (JsVal.str "busy"), productivity := some (JsVal.num 150) }
      hardenedInit []).2.2.2.1 ?_
    rintro ⟨nv, hnv, h0, h1⟩
    simp at hnv
    omega
  · exact (updateState_field_ranges ⟨"offline", 3, 42⟩
      { tasks := some (JsVal.num 7) } hardenedInit []).1 7 rfl (by decide) (by decide)

/-- C5: a new subscriber on `GET /api/events` is synchronously written
exactly one `state` event whose snapshot is the store at the moment of
subscribing, and every event broadcast afterwards reaches it strictly after
that initial event. -/
theorem subscribe_initial_state (s : ServerState) (f : Nat) (es : List Event) :
    broadcastAll (subscribeRoute s f).sseClients es
      = broadcastAll s.sseClients es ++ [⟨f, Event.state s.agentState :: es⟩] := by
  show broadcastAll (s.sseClients ++ [⟨f, [Event.state s.agentState]⟩]) es = _
  rw [broadcastAll_append, broadcastAll_single]
  simp

/-- C7: with the task-assignment capability disabled, `POST /api/assign-task`
answers 403 for every body and leaves the store, both task-log views and
every subscriber untouched, publishing nothing. -/
theorem assignTask_disabled_forbidden (s : ServerState) (body : TaskObj) :
    assignTaskDisabled s body = (ApiResult.forbidden, s)
    ∧ (assignTaskDisabled s body).2.taskQueue = s.taskQueue
    ∧ (assignTaskDisabled s body).2.taskHistory = s.taskHistory
    ∧ (assignTaskDisabled s body).2.agentState = s.agentState
    ∧ (assignTaskDisabled s body).2.sseClients = s.sseClients :=
  ⟨rfl, rfl, rfl, rfl, rfl⟩

/-- Counterexample to C2: starting from the hardened initial store, set
`DevBot` to `busy` through the gateway, then send a status outside the closed
set (`"weird"`): the stored status becomes `"offline"`, not the previous
`"busy"` — the field is not dropped. Sending an accepted status in mixed
case (`"BUSY"`) stores `"BUSY"` verbatim — no normalisation on write. -/
theorem updateState_status_cx :
    lookupAgent (updateStateRoute (updateStateRoute hardenedInit
        (some [("DevBot", { status := some (JsVal.str "busy") })])).2
        (some [("DevBot", { status := some (JsVal.str "weird") })])).2.agentState "DevBot"
      = some ⟨"offline", 0, 0⟩
    ∧ lookupAgent (updateStateRoute hardenedInit
        (some [("DevBot", { status := some (JsVal.str "busy") })])).2.agentState "DevBot"
      = some ⟨"busy", 0, 0⟩
    ∧ ("offline" : String) ≠ "busy"
    ∧ lookupAgent (updateStateRoute (updateStateRoute hardenedInit
        (some [("DevBot", { status := some (JsVal.str "busy") })])).2
        (some [("DevBot", { status := some (JsVal.str "BUSY") })])).2.agentState "DevBot"
      = some ⟨"BUSY", 0, 0⟩
    ∧ ("BUSY" : String) ≠ "busy" := by decide

/-- C2 as amended: a string status whose lowercase form is outside the
closed set overwrites the agent's status with `"offline"` (it is not
dropped); an accepted status is stored exactly as given, without case
normalisation; a non-string status leaves the field unchanged. -/
theorem updateState_status_amended (old : AgentRecord) (p : PartialAgentState) :
    (∀ sv, p.status = some (JsVal.str sv) →
        jsToLower sv ∉ validStatuses →
        (applySafe old p).status = "offline")
    ∧ (∀ sv, p.status = some (JsVal.str sv) →
        jsToLower sv ∈ validStatuses →
        (applySafe old p).status = sv)
    ∧ ((∀ sv, p.status ≠ some (JsVal.str sv)) →
        (applySafe old p).status = old.status) := by
  refine ⟨?_, ?_, ?_⟩
  · intro sv hsv hbad
    rw [applySafe_status, hsv]
    simp [hbad]
  · intro sv hsv hgood
    rw [applySafe_status, hsv]
    simp [hgood]
  · intro hnostr
    rw [applySafe_status]
    rcases hps : p.status with _ | (sv | nv | _)
    · rfl
    · exact absurd hps (hnostr sv)
    · rfl
    · rfl

/-- Witness for the amended C2 at concrete records. -/
theorem updateState_status_amended_witness :
    (applySafe ⟨"busy", 0, 0⟩ { status := some (JsVal.str "weird") }).status = "offline"
    ∧ (applySafe ⟨"busy", 0, 0⟩ { status := some (JsVal.str "BUSY") }).status = "BUSY" := by
  constructor
  · exact (updateState_status_amended ⟨"busy", 0, 0⟩ _).1 "weird" rfl (by decide)
  · exact (updateState_status_amended ⟨"busy", 0, 0⟩ _).2.1 "BUSY" rfl (by decide)

/-- C4: a successful `POST /api/assign-task` (known agent, non-empty task)
returns the new task entry, appends it to both queue and history, increments
exactly that agent's `tasks` by 1, leaves every other agent unchanged, and
writes exactly one `task_assigned` event to every currently subscribed
handle. -/
theorem assignTask_success (s : ServerState) (a t : String) (now : Nat)
    (r : AgentRecord) (hr : lookupAgent s.agentState a = some r)
    (ha : a ≠ "") (ht : t ≠ "") :
    (assignTaskEnabled s (some a) (some t) now).1
        = ApiResult.okTask (taskEntryOf a t now)
    ∧ (assignTaskEnabled s (some a) (some t) now).2.taskQueue
        = s.taskQueue ++ [taskEntryOf a t now]
    ∧ (assignTaskEnabled s (some a) (some t) now).2.taskHistory
        = s.taskHistory ++ [taskEntryOf a t now]
    ∧ lookupAgent (assignTaskEnabled s (some a) (some t) now).2.agentState a
        = some { r with tasks := r.tasks + 1 }
    ∧ (∀ k, k ≠ a →
        lookupAgent (assignTaskEnabled s (some a) (some t) now).2.agentState k
          = lookupAgent s.agentState k)
    ∧ (∀ i, i < s.sseClients.length →
        ((assignTaskEnabled s (some a) (some t) now).2.sseClients.get? i).map
            Subscriber.written
          = (s.sseClients.get? i).map (fun c => c.written ++
              [Event.taskAssigned (taskEntryOf a t now)
                (assignTaskEnabled s (some a) (some t) now).2.agentState]))
    ∧ (assignTaskEnabled s (some a) (some t) now).2.sseClients.length
        = s.sseClients.length := by
  have hroute : assignTaskEnabled s (some a) (some t) now
      = (ApiResult.okTask (taskEntryOf a t now),
         { agentState := setAgent s.agentState a { r with tasks := orZero r.tasks + 1 },
           taskQueue := s.taskQueue ++ [taskEntryOf a t now],
           taskHistory := s.taskHistory ++ [taskEntryOf a t now],
           sseClients := broadcast s.sseClients (Event.taskAssigned (taskEntryOf a t now)
             (setAgent s.agentState a { r with tasks := orZero r.tasks + 1 })) }) := by
    simp [assignTaskEnabled, ha, ht, hr]
  rw [hroute]
  refine ⟨rfl, rfl, rfl, ?_, ?_, ?_, ?_⟩
  · rw [lookupAgent_setAgent_self, orZero_add_one]
  · intro k hk
    exact lookupAgent_setAgent_ne _ _ _ _ hk
  · intro i hi
    simp [broadcast, List.getElem?_map]
    rcases s.sseClients[i]? with _ | c <;> rfl
  · simp [broadcast]

/-- Witness for C4: assigning `"fix"` to `DevBot` at clock 100 in the
`src/server.js` initial state. -/
theorem assignTask_success_witness :
    lookupAgent (assignTaskEnabled serverInit (some "DevBot") (some "fix")
        100).2.agentState "DevBot" = some ⟨"online", 6, 92⟩
    ∧ (assignTaskEnabled serverInit (some "DevBot") (some "fix")
        100).2.taskHistory = [taskEntryOf "DevBot" "fix" 100] := by
  have h := assignTask_success serverInit "DevBot" "fix" 100 ⟨"online", 5, 92⟩
      (by decide) (by decide) (by decide)
  refine ⟨?_, ?_⟩
  · rw [h.2.2.2.1]
    decide
  · rw [h.2.2.1]
    rfl

/-- C6: on the hardened `POST /api/agent-status`, once both fields pass the
input filter and are non-empty, an unknown agent yields 404 with the whole
server state (store, logs, subscribers) unchanged and no event published,
and a known agent with a status outside the closed enumeration
(case-insensitively) yields 400, likewise with no state change and no
event. -/
theorem agentStatus_errors (s : ServerState) (araw sraw : Option JsVal)
    (a st : String) (ha : validateInput araw 50 = some a)
    (hs : validateInput sraw 50 = some st) (ha' : a ≠ "") (hs' : st ≠ "") :
    (lookupAgent s.agentState a = none →
        agentStatusRoute s araw sraw = (ApiResult.notFound, s))
    ∧ (∀ r, lookupAgent s.agentState a = some r →
        jsToLower st ∉ validStatuses →
        agentStatusRoute s araw sraw = (ApiResult.badRequest, s)) := by
  constructor
  · intro hnone
    simp [agentStatusRoute, ha, hs, ha', hs', hnone]
  · intro r hr hbad
    simp [agentStatusRoute, ha, hs, ha', hs', hr, hbad]

/-- Witness for C6: the spec's scenario, unknown agent `"C"` with status
`"online"`, and known agent `DevBot` with invalid status `"zzz"`, on the
hardened initial state. -/
theorem agentStatus_errors_witness :
    agentStatusRoute hardenedInit (some (JsVal.str "C")) (some (JsVal.str "online"))
        = (ApiResult.notFound, hardenedInit)
    ∧ agentStatusRoute hardenedInit (some (JsVal.str "DevBot")) (some (JsVal.str "zzz"))
        = (ApiResult.badRequest, hardenedInit) := by
  constructor
  · exact (agentStatus_errors hardenedInit (some (JsVal.str "C"))
      (some (JsVal.str "online")) "C" "online"
      (by decide) (by decide) (by decide) (by decide)).1 (by decide)
  · exact (agentStatus_errors hardenedInit (some (JsVal.str "DevBot"))
      (some (JsVal.str "zzz")) "DevBot" "zzz"
      (by decide) (by decide) (by decide) (by decide)).2
      ⟨"offline", 0, 0⟩ (by decide) (by decide)

/-! ### Unsubscribe lemmas -/

lemma unsubscribeClient_of_not_mem (cs : List Subscriber) (h : Nat)
    (hh : ∀ c ∈ cs, c.id ≠ h) : unsubscribeClient cs h = cs := by
  induction cs with
  | nil => rfl
  | cons c cs ih =>
    have hc : c.id ≠ h := hh c (List.mem_cons_self c cs)
    simp only [unsubscribeClient, if_neg hc]
    rw [ih (fun c' hc' => hh c' (List.mem_cons_of_mem c hc'))]

lemma unsubscribeClient_idem (cs : List Subscriber) (h : Nat)
    (hnd : (cs.map Subscriber.id).Nodup) :
    unsubscribeClient (unsubscribeClient cs h) h = unsubscribeClient cs h := by
  induction cs with
  | nil => rfl
  | cons c cs ih =>
    have hnd' : c.id ∉ cs.map Subscriber.id ∧ (cs.map Subscriber.id).Nodup := by
      rw [List.map_cons, List.nodup_cons] at hnd
      exact hnd
    by_cases hc : c.id = h
    · simp only [unsubscribeClient, if_pos hc]
      apply unsubscribeClient_of_not_mem
      intro c' hc' he
      have hm : c'.id ∈ cs.map Subscriber.id := List.mem_map_of_mem _ hc'
      rw [he, ← hc] at hm
      exact hnd'.1 hm
    · simp only [unsubscribeClient, if_neg hc]
      rw [ih hnd'.2]

lemma mem_unsubscribeClient (cs : List Subscriber) (h : Nat) (c : Subscriber)
    (hc : c ∈ cs) (hne : c.id ≠ h) : c ∈ unsubscribeClient cs h := by
  induction cs with
  | nil => cases hc
  | cons c' cs ih =>
    by_cases h' : c'.id = h
    · simp only [unsubscribeClient, if_pos h']
      rcases List.mem_cons.mp hc with he | hm
      · rw [he] at hne
        exact absurd h' hne
      · exact hm
    · simp only [unsubscribeClient, if_neg h']
      rcases List.mem_cons.mp hc with he | hm
      · exact he ▸ List.mem_cons_self _ _
      · exact List.mem_cons_of_mem _ (ih hm)

/-- C8: the SSE close handler (`indexOf` then `splice`) is idempotent.
Handles are distinct response objects, so the id list has no duplicates;
under that invariant, removing the same handle a second time changes
nothing, removing an already-absent handle is a no-op, and no other
subscriber is ever removed. -/
theorem unsubscribe_idempotent (cs : List Subscriber) (h : Nat)
    (hnd : (cs.map Subscriber.id).Nodup) :
    unsubscribeClient (unsubscribeClient cs h) h = unsubscribeClient cs h
    ∧ ((∀ c ∈ cs, c.id ≠ h) → unsubscribeClient cs h = cs)
    ∧ (∀ c ∈ cs, c.id ≠ h → c ∈ unsubscribeClient cs h) :=
  ⟨unsubscribeClient_idem cs h hnd,
   fun hh => unsubscribeClient_of_not_mem cs h hh,
   fun c hc hne => mem_unsubscribeClient cs h c hc hne⟩

/-- Witness for C8 on a concrete two-subscriber list. -/
theorem unsubscribe_idempotent_witness :
    unsubscribeClient (unsubscribeClient [⟨1, []⟩, ⟨2, []⟩] 1) 1
        = unsubscribeClient [⟨1, []⟩, ⟨2, []⟩] 1
    ∧ unsubscribeClient [⟨1, []⟩, ⟨2, []⟩] 1 = [⟨2, []⟩] :=
  ⟨(unsubscribe_idempotent [⟨1, []⟩, ⟨2, []⟩] 1 (by decide)).1, by decide⟩

/-- C10: `POST /api/task-assigned` accepts any body: it appends the body
verbatim to history and queue (no validation of agent or description),
increments `tasks` only when the referenced agent is known, always
broadcasts a `task_assigned` event and always answers `{success:true}` —
also in the hardened deployment where `/api/assign-task` is disabled. -/
theorem taskAssigned_unvalidated (s : ServerState) (body : TaskObj) :
    (taskAssignedRoute s body).1 = ApiResult.ok
    ∧ (taskAssignedRoute s body).2.taskHistory = s.taskHistory ++ [body]
    ∧ (taskAssignedRoute s body).2.taskQueue = s.taskQueue ++ [body]
    ∧ (∀ a r, body.agent = some a → lookupAgent s.agentState a = some r →
        lookupAgent (taskAssignedRoute s body).2.agentState a
          = some { r with tasks := r.tasks + 1 })
    ∧ (∀ a, body.agent = some a → lookupAgent s.agentState a = none →
        (taskAssignedRoute s body).2.agentState = s.agentState)
    ∧ (body.agent = none → (taskAssignedRoute s body).2.agentState = s.agentState)
    ∧ (taskAssignedRoute s body).2.sseClients
        = broadcast s.sseClients
            (Event.taskAssigned body (taskAssignedRoute s body).2.agentState) := by
  refine ⟨rfl, rfl, rfl, ?_, ?_, ?_, rfl⟩
  · intro a r hba hr
    simp only [taskAssignedRoute, hba, hr]
    rw [lookupAgent_setAgent_self, orZero_add_one]
  · intro a hba hr
    simp [taskAssignedRoute, hba, hr]
  · intro hba
    simp [taskAssignedRoute, hba]

/-- Witness for C10: a body naming the unknown agent `Ghost` (and lacking a
description) is still logged and succeeds on the hardened server; a body
naming `DevBot` also increments its task count. -/
theorem taskAssigned_unvalidated_witness :
    (taskAssignedRoute hardenedInit { agent := some "Ghost" }).1 = ApiResult.ok
    ∧ (taskAssignedRoute hardenedInit { agent := some "Ghost" }).2.taskHistory
        = [{ agent := some "Ghost" }]
    ∧ (taskAssignedRoute hardenedInit { agent := some "Ghost" }).2.agentState
        = hardenedInit.agentState
    ∧ lookupAgent (taskAssignedRoute hardenedInit
        { agent := some "DevBot" }).2.agentState "DevBot" = some ⟨"offline", 1, 0⟩ := by
  have h1 := taskAssigned_unvalidated hardenedInit { agent := some "Ghost" }
  have h2 := taskAssigned_unvalidated hardenedInit { agent := some "DevBot" }
  refine ⟨h1.1, ?_, ?_, ?_⟩
  · rw [h1.2.1]
    rfl
  · exact h1.2.2.2.2.1 "Ghost" rfl (by decide)
  · rw [h2.2.2.2.1 "DevBot" ⟨"offline", 0, 0⟩ rfl (by decide)]
    decide

/-! ### Task id lemmas -/

lemma assignTaskEnabled_empty (s : ServerState) (a t : String) (now : Nat)
    (he : a = "" ∨ t = "") :
    assignTaskEnabled s (some a) (some t) now = (ApiResult.badRequest, s) := by
  rcases he with he | he <;> subst he <;> simp [assignTaskEnabled]

lemma assignTaskEnabled_unknown (s : ServerState) (a t : String) (now : Nat)
    (ha : a ≠ "") (ht : t ≠ "") (hl : lookupAgent s.agentState a = none) :
    assignTaskEnabled s (some a) (some t) now = (ApiResult.notFound, s) := by
  simp [assignTaskEnabled, ha, ht, hl]

lemma assignTaskEnabled_history (s : ServerState) (a t : String) (now : Nat)
    (r : AgentRecord) (ha : a ≠ "") (ht : t ≠ "")
    (hl : lookupAgent s.agentState a = some r) :
    (assignTaskEnabled s (some a) (some t) now).2.taskHistory
      = s.taskHistory ++ [taskEntryOf a t now] := by
  simp [assignTaskEnabled, ha, ht, hl]

lemma runAssigns_ids_sorted (trace : List (String × String × Nat)) (s : ServerState)
    (hclock : (trace.map (fun x => x.2.2)).Sorted (· ≤ ·))
    (hsor : (historyIds s).Sorted (· ≤ ·))
    (hle : ∀ i ∈ historyIds s, ∀ c ∈ trace.map (fun x => x.2.2), i ≤ c) :
    (historyIds (runAssigns s trace)).Sorted (· ≤ ·) := by
  induction trace generalizing s with
  | nil => exact hsor
  | cons q rest ih =>
    obtain ⟨a, t, now⟩ := q
    rw [List.map_cons, List.sorted_cons] at hclock
    obtain ⟨hnow, hclock'⟩ := hclock
    have hstep : historyIds (assignTaskEnabled s (some a) (some t) now).2 = historyIds s
        ∨ historyIds (assignTaskEnabled s (some a) (some t) now).2
            = historyIds s ++ [now] := by
      by_cases ha : a = ""
      · left
        rw [assignTaskEnabled_empty s a t now (Or.inl ha)]
      · by_cases ht : t = ""
        · left
          rw [assignTaskEnabled_empty s a t now (Or.inr ht)]
        · cases hl : lookupAgent s.agentState a with
          | none =>
              left
              rw [assignTaskEnabled_unknown s a t now ha ht hl]
          | some r =>
              right
              simp [historyIds, assignTaskEnabled_history s a t now r ha ht hl,
                List.filterMap_append, taskEntryOf]
    show (historyIds (runAssigns (assignTaskEnabled s (some a) (some t) now).2
        rest)).Sorted (· ≤ ·)
    rcases hstep with hsame | happ
    · refine ih _ hclock' ?_ ?_
      · rw [hsame]
        exact hsor
      · rw [hsame]
        intro i hi c hc
        exact hle i hi c (List.mem_cons_of_mem _ hc)
    · refine ih _ hclock' ?_ ?_
      · rw [happ]
        refine List.pairwise_append.mpr ⟨hsor, List.pairwise_singleton _ _, ?_⟩
        intro x hx y hy
        simp only [List.mem_singleton] at hy
        rw [hy]
        exact hle x hx now (by simp)
      · rw [happ]
        intro i hi c hc
        rcases List.mem_append.mp hi with hi' | hi'
        · exact hle i hi' c (List.mem_cons_of_mem _ hc)
        · simp only [List.mem_singleton] at hi'
          subst hi'
          exact hnow c hc

/-- Counterexample to C9: two `/api/assign-task` calls inside the same
millisecond (`Date.now()` returns 100 twice, a legal, non-decreasing clock)
append two distinct task records that share the same id — ids are not
unique. -/
theorem taskIds_cx :
    (runAssigns serverInit [("DevBot", "x", 100), ("DevBot", "y", 100)]).taskHistory
      = [taskEntryOf "DevBot" "x" 100, taskEntryOf "DevBot" "y" 100]
    ∧ taskEntryOf "DevBot" "x" 100 ≠ taskEntryOf "DevBot" "y" 100
    ∧ (taskEntryOf "DevBot" "x" 100).id = (taskEntryOf "DevBot" "y" 100).id := by
  decide

/-- C9 as amended: task ids are non-decreasing in append order (`Date.now()`
is non-decreasing), but not strictly increasing and not unique — appends in
the same millisecond share an id. -/
theorem taskIds_nondecreasing (trace : List (String × String × Nat))
    (hclock : (trace.map (fun x => x.2.2)).Sorted (· ≤ ·)) :
    (historyIds (runAssigns serverInit trace)).Sorted (· ≤ ·) :=
  runAssigns_ids_sorted trace serverInit hclock (by simp [historyIds, serverInit])
    (fun i hi => by simp [historyIds, serverInit] at hi)

/-- Witness for the amended C9 on a concrete two-step trace. -/
theorem taskIds_nondecreasing_witness :
    ([("DevBot", "x", 100), ("DevBot", "y", 150)].map
        (fun x => x.2.2)).Sorted (· ≤ ·)
    ∧ (historyIds (runAssigns serverInit
        [("DevBot", "x", 100), ("DevBot", "y", 150)])).Sorted (· ≤ ·) :=
  ⟨by decide, taskIds_nondecreasing _ (by decide)⟩
